import Mathlib

/-!
Verification development for the GridApplication repository.

The repository builds a square grid over an area of interest (AOI):
`make_Grid.py` projects the AOI to a UTM zone chosen from its centroid,
anchors a grid of `CELL`-sized squares to the projected bounding box,
clips each square against the AOI and emits the surviving cells with
sequential `cell_id`s; `agents_to_cell_csvs.py` assigns trajectory points
to cells by a strict point-in-polygon spatial join and appends the rows,
sorted by time and grouped by cell, to per-cell per-bucket CSV files.

The shapely geometry operations used by `make_Grid.py` are modelled by a
structure `GeomLib` packaging the operations together with their
documented set-level semantics (fields `toSet`, `intersects_iff`, ...).
The grid loop itself is translated directly from the source and proved
correct for every lawful `GeomLib`.  A concrete executable instance
`rectLib` (regions that are finite unions of closed axis-aligned rational
rectangles) witnesses that the laws are satisfiable and lets every
theorem be evaluated on concrete inputs.

The file-system effects of `agents_to_cell_csvs.py` are modelled by an
explicit state type `FS`; per-file append with header-once semantics is
the translation of the `write_header = not out_csv.exists()` logic.
-/

/-- An axis-aligned planar box, as produced by shapely's
`box(minx, miny, maxx, maxy)`.  Coordinates are rationals standing for
the planar (metric) coordinates of the projected AOI. -/
structure Box where
  minx : ℚ
  miny : ℚ
  maxx : ℚ
  maxy : ℚ
deriving DecidableEq

/-- The set of points of a closed box. -/
def boxSet (b : Box) : Set (ℚ × ℚ) :=
  { p | b.minx ≤ p.1 ∧ p.1 ≤ b.maxx ∧ b.miny ≤ p.2 ∧ p.2 ≤ b.maxy }

/-- The open interior of a box (strict inequalities). -/
def inOpenBox (b : Box) (p : ℚ × ℚ) : Prop :=
  b.minx < p.1 ∧ p.1 < b.maxx ∧ b.miny < p.2 ∧ p.2 < b.maxy

/-- Decides whether a closed box has at least one point. -/
def rectNonempty (b : Box) : Bool :=
  decide (b.minx ≤ b.maxx) && decide (b.miny ≤ b.maxy)

/-- Intersection of two closed boxes (again a box). -/
def rectInter (a b : Box) : Box :=
  ⟨max a.minx b.minx, max a.miny b.miny, min a.maxx b.maxx, min a.maxy b.maxy⟩

theorem boxSet_rectInter (a b : Box) : boxSet (rectInter a b) = boxSet a ∩ boxSet b := by
  ext p
  simp only [boxSet, rectInter, Set.mem_setOf_eq, Set.mem_inter_iff, max_le_iff, le_min_iff]
  tauto

theorem rectNonempty_iff (b : Box) : rectNonempty b = true ↔ (boxSet b).Nonempty := by
  constructor
  · intro h
    simp only [rectNonempty, Bool.and_eq_true, decide_eq_true_eq] at h
    exact ⟨(b.minx, b.miny), le_refl _, h.1, le_refl _, h.2⟩
  · rintro ⟨p, hp⟩
    obtain ⟨h1, h2, h3, h4⟩ := hp
    simp only [rectNonempty, Bool.and_eq_true, decide_eq_true_eq]
    exact ⟨h1.trans h2, h3.trans h4⟩

/-- Interface to the geometry library (shapely), packaging exactly the
operations `make_Grid.py` and `agents_to_cell_csvs.py` use, together
with their documented set-level semantics:
`intersects` is the prepared-geometry intersection test
(`aoi_prep.intersects(cell)`), `interBox` is `cell.intersection(aoi)`,
`isEmpty` is `.is_empty`, `bounds` is `.bounds`, `area` is `.area`, and
`within` is the DE-9IM `within` predicate of
`gpd.sjoin(..., predicate="within")`.  For `within`, only the
containment half (`within_mem`) is assumed as a law: DE-9IM `within`
additionally requires the point to meet the geometry's interior, and
that interior is the *relative* interior of each part (a point inside a
degenerate 1-D clipped cell is `within` it even though it is not in the
open square), so no stronger interior law is sound for shapely. -/
structure GeomLib (G : Type) where
  toSet : G → Set (ℚ × ℚ)
  bounds : G → ℚ × ℚ × ℚ × ℚ
  intersects : G → Box → Bool
  interBox : Box → G → G
  isEmpty : G → Bool
  area : G → ℚ
  within : ℚ × ℚ → G → Bool
  intersects_iff : ∀ (g : G) (b : Box), intersects g b = true ↔ (boxSet b ∩ toSet g).Nonempty
  interBox_toSet : ∀ (b : Box) (g : G), toSet (interBox b g) = boxSet b ∩ toSet g
  isEmpty_iff : ∀ g : G, isEmpty g = true ↔ toSet g = ∅
  within_mem : ∀ (p : ℚ × ℚ) (g : G), within p g = true → p ∈ toSet g

/-- A concrete geometry type: a region is a finite union of closed
axis-aligned rational rectangles. -/
abbrev Region := List Box

/-- The set of points covered by a region. -/
def regionSet (g : Region) : Set (ℚ × ℚ) := { p | ∃ b ∈ g, p ∈ boxSet b }

/-- `(minx, miny, maxx, maxy)` of a region, like shapely `.bounds` for
a non-empty geometry.  For an empty geometry shapely's `.bounds` is
empty/NaN and `make_Grid.py` would already have failed at the centroid
of line 71 or the unpack/floor of lines 81-82, so the `[]` case below is
a placeholder outside the modelled scope: no theorem in this file
asserts anything about the behaviour of the builder on an AOI with
empty point-set. -/
def regionBounds (g : Region) : ℚ × ℚ × ℚ × ℚ :=
  match g with
  | [] => (0, 0, 0, 0)
  | b :: rest =>
    rest.foldl (fun a r => (min a.1 r.minx, min a.2.1 r.miny,
      max a.2.2.1 r.maxx, max a.2.2.2 r.maxy)) (b.minx, b.miny, b.maxx, b.maxy)

/-- Planar area of a region, summed rectangle by rectangle. -/
def regionArea (g : Region) : ℚ :=
  (g.map (fun b => (b.maxx - b.minx) * (b.maxy - b.miny))).sum

theorem mem_regionSet {p : ℚ × ℚ} {g : Region} :
    p ∈ regionSet g ↔ ∃ b ∈ g, p ∈ boxSet b := Iff.rfl

/-- DE-9IM `within` of a point in one (possibly degenerate) closed
rectangle: the point must lie in the rectangle's *relative* interior —
the open box for a two-dimensional rectangle, the relative interior of
the segment (endpoints excluded) for a degenerate one-dimensional
rectangle, and the point itself for a point rectangle.  This matches
shapely, where e.g. `Point(5, 5).within(LineString([(5, 0), (5, 10)]))`
holds. -/
def rectWithin (p : ℚ × ℚ) (r : Box) : Bool :=
  if r.minx < r.maxx ∧ r.miny < r.maxy then
    decide (r.minx < p.1) && decide (p.1 < r.maxx) &&
    decide (r.miny < p.2) && decide (p.2 < r.maxy)
  else if r.minx = r.maxx ∧ r.miny < r.maxy then
    decide (p.1 = r.minx) && decide (r.miny < p.2) && decide (p.2 < r.maxy)
  else if r.minx < r.maxx ∧ r.miny = r.maxy then
    decide (r.minx < p.1) && decide (p.1 < r.maxx) && decide (p.2 = r.miny)
  else
    decide (r.minx = r.maxx) && decide (r.miny = r.maxy) &&
    decide (p.1 = r.minx) && decide (p.2 = r.miny)

theorem rectWithin_mem (p : ℚ × ℚ) (r : Box) (h : rectWithin p r = true) :
    p ∈ boxSet r := by
  rw [rectWithin] at h
  split_ifs at h with h1 h2 h3
  all_goals simp only [Bool.and_eq_true, decide_eq_true_eq] at h
  · exact ⟨le_of_lt h.1.1.1, le_of_lt h.1.1.2, le_of_lt h.1.2, le_of_lt h.2⟩
  · obtain ⟨⟨hp1, hp2⟩, hp3⟩ := h
    exact ⟨le_of_eq hp1.symm, le_of_eq (hp1.trans h2.1), le_of_lt hp2, le_of_lt hp3⟩
  · obtain ⟨⟨hp1, hp2⟩, hp3⟩ := h
    exact ⟨le_of_lt hp1, le_of_lt hp2, le_of_eq hp3.symm, le_of_eq (hp3.trans h3.2)⟩
  · obtain ⟨⟨⟨hxx, hyy⟩, hp1⟩, hp2⟩ := h
    exact ⟨le_of_eq hp1.symm, le_of_eq (hp1.trans hxx), le_of_eq hp2.symm,
      le_of_eq (hp2.trans hyy)⟩

/-- The concrete, fully executable geometry library on `Region`,
satisfying all the `GeomLib` laws. -/
def rectLib : GeomLib Region where
  toSet := regionSet
  bounds := regionBounds
  intersects g b := g.any fun r => rectNonempty (rectInter b r)
  interBox b g := (g.map (rectInter b)).filter rectNonempty
  isEmpty g := g.all fun r => ! rectNonempty r
  area := regionArea
  within p g := g.any fun r => rectWithin p r
  intersects_iff := by
    intro g b
    constructor
    · intro h
      obtain ⟨r, hr, hne⟩ := List.any_eq_true.mp h
      obtain ⟨p, hp⟩ := (rectNonempty_iff _).mp hne
      rw [boxSet_rectInter] at hp
      exact ⟨p, hp.1, r, hr, hp.2⟩
    · rintro ⟨p, hpb, r, hr, hpr⟩
      refine List.any_eq_true.mpr ⟨r, hr, (rectNonempty_iff _).mpr ⟨p, ?_⟩⟩
      rw [boxSet_rectInter]
      exact ⟨hpb, hpr⟩
  interBox_toSet := by
    intro b g
    ext p
    simp only [regionSet, Set.mem_setOf_eq, List.mem_filter, List.mem_map,
      Set.mem_inter_iff]
    constructor
    · rintro ⟨r', ⟨⟨r, hr, rfl⟩, _⟩, hp⟩
      rw [boxSet_rectInter] at hp
      exact ⟨hp.1, r, hr, hp.2⟩
    · rintro ⟨hpb, r, hr, hpr⟩
      have hmem : p ∈ boxSet (rectInter b r) := by
        rw [boxSet_rectInter]
        exact ⟨hpb, hpr⟩
      exact ⟨rectInter b r, ⟨⟨r, hr, rfl⟩, (rectNonempty_iff _).mpr ⟨p, hmem⟩⟩, hmem⟩
  isEmpty_iff := by
    intro g
    constructor
    · intro h
      refine Set.eq_empty_iff_forall_not_mem.mpr ?_
      rintro p ⟨r, hr, hp⟩
      have h1 := List.all_eq_true.mp h r hr
      have h2 := (rectNonempty_iff r).mpr ⟨p, hp⟩
      rw [h2] at h1
      exact absurd h1 (by decide)
    · intro h
      refine List.all_eq_true.mpr fun r hr => ?_
      have : ¬ (boxSet r).Nonempty := by
        rintro ⟨p, hp⟩
        exact Set.eq_empty_iff_forall_not_mem.mp h p ⟨r, hr, hp⟩
      have h2 : rectNonempty r = false := by
        cases hcase : rectNonempty r with
        | false => rfl
        | true => exact absurd ((rectNonempty_iff r).mp hcase) this
      rw [h2]
      rfl
  within_mem := by
    intro p g h
    obtain ⟨r, hr, hs⟩ := List.any_eq_true.mp h
    exact ⟨r, hr, rectWithin_mem p r hs⟩

/-- Grid anchoring parameters, from `make_Grid.py` lines 81-86:
`start_x = math.floor(minx / CELL) * CELL`,
`cols = int(math.ceil((maxx - start_x) / CELL))`, and likewise for y. -/
structure GridParams where
  startX : ℚ
  startY : ℚ
  cols : ℤ
  rows : ℤ
deriving DecidableEq

/-- Translation of the bounding-box anchoring arithmetic of `main`. -/
def mkGridParams (minx miny maxx maxy cell : ℚ) : GridParams :=
  { startX := (⌊minx / cell⌋ : ℚ) * cell
    startY := (⌊miny / cell⌋ : ℚ) * cell
    cols := ⌈(maxx - (⌊minx / cell⌋ : ℚ) * cell) / cell⌉
    rows := ⌈(maxy - (⌊miny / cell⌋ : ℚ) * cell) / cell⌉ }

/-- One emitted grid cell: the `properties` plus clipped `geometry` of a
feature appended to `features_metric` in `make_Grid.py`. -/
structure Feature (G : Type) where
  cellId : ℕ
  row : ℕ
  col : ℕ
  area : ℚ
  geometry : G
deriving DecidableEq

/-- The square footprint of the cell at grid position `(r, c)`:
`box(x0, y0, x0 + CELL, y0 + CELL)` with `x0 = start_x + c * CELL` and
`y0 = start_y + r * CELL`. -/
def cellBox (sx sy cell : ℚ) (r c : ℕ) : Box :=
  ⟨sx + c * cell, sy + r * cell, sx + c * cell + cell, sy + r * cell + cell⟩

/-- The body of the scan loop for one grid position: skip if the
prepared AOI does not intersect the square, skip if the clipped
intersection is empty, otherwise emit the clipped geometry
(`make_Grid.py` lines 98-103). -/
def emitRC {G : Type} (lib : GeomLib G) (aoi : G) (sx sy cell : ℚ) (rc : ℕ × ℕ) : Option G :=
  if lib.intersects aoi (cellBox sx sy cell rc.1 rc.2) then
    if lib.isEmpty (lib.interBox (cellBox sx sy cell rc.1 rc.2) aoi) then none
    else some (lib.interBox (cellBox sx sy cell rc.1 rc.2) aoi)
  else none

/-- The scan loop of `make_Grid.py` lines 92-118: walk the candidate
grid positions, thread the `cell_id` counter, and emit a feature for
each surviving cell. -/
def gridGo {G : Type} (lib : GeomLib G) (aoi : G) (sx sy cell : ℚ) :
    List (ℕ × ℕ) → ℕ → List (Feature G)
  | [], _ => []
  | rc :: rest, k =>
    match emitRC lib aoi sx sy cell rc with
    | none => gridGo lib aoi sx sy cell rest k
    | some g =>
      { cellId := k, row := rc.1, col := rc.2, area := lib.area g, geometry := g } ::
        gridGo lib aoi sx sy cell rest (k + 1)

/-- Row-major scan order: `for r in range(rows): for c in range(cols)`. -/
def rowMajor (rows cols : ℕ) : List (ℕ × ℕ) :=
  (List.range rows).flatMap fun r => (List.range cols).map fun c => (r, c)

/-- Grid parameters computed from the projected AOI's bounds. -/
def gridParamsOf {G : Type} (lib : GeomLib G) (aoi : G) (cell : ℚ) : GridParams :=
  mkGridParams (lib.bounds aoi).1 (lib.bounds aoi).2.1
    (lib.bounds aoi).2.2.1 (lib.bounds aoi).2.2.2 cell

/-- The grid-building pass of `main` in `make_Grid.py` (lines 81-118),
taking the already-projected AOI.  Python raises `ZeroDivisionError` on
`minx / CELL` when the cell size is zero; otherwise the scan loop runs
to completion and the feature list is returned. -/
def buildGrid {G : Type} (lib : GeomLib G) (aoi : G) (cell : ℚ) :
    Except String (List (Feature G)) :=
  if cell = 0 then Except.error "ZeroDivisionError: float division by zero"
  else
    Except.ok (gridGo lib aoi (gridParamsOf lib aoi cell).startX
      (gridParamsOf lib aoi cell).startY cell
      (rowMajor (gridParamsOf lib aoi cell).rows.toNat
        (gridParamsOf lib aoi cell).cols.toNat) 0)

/-- The square footprint of an emitted feature, reconstructed from its
row/column and the grid anchoring. -/
def cellFootprint {G : Type} (lib : GeomLib G) (aoi : G) (cell : ℚ) (f : Feature G) : Box :=
  cellBox (gridParamsOf lib aoi cell).startX (gridParamsOf lib aoi cell).startY
    cell f.row f.col

/-- `zone = int((lon + 180)//6) + 1` from `best_utm` in `make_Grid.py`. -/
def utmZone (lon : ℚ) : ℤ := ⌊(lon + 180) / 6⌋ + 1

/-- `best_utm`: `32600 + zone if lat >= 0 else 32700 + zone`, returning
the selected EPSG code as the zone identifier. -/
def best_utm (lon lat : ℚ) : ℤ :=
  if 0 ≤ lat then 32600 + utmZone lon else 32700 + utmZone lon

/-- One input trajectory record of `agents_to_cell_csvs.py`
(`agent`, time column, `latitude`, `longitude`). -/
structure PtRow where
  agent : ℕ
  time : ℚ
  latitude : ℚ
  longitude : ℚ
deriving DecidableEq

/-- `points_from_xy(df[longitude], df[latitude])`: the point geometry
of a record. -/
def pointOf (r : PtRow) : ℚ × ℚ := (r.longitude, r.latitude)

/-- One output row, in the column order
`agent, latitude, longitude, time, cell_id, bucket_id`. -/
structure OutRow where
  agent : ℕ
  latitude : ℚ
  longitude : ℚ
  time : ℚ
  cellId : ℕ
  bucketId : ℤ
deriving DecidableEq

/-- The grid cells matching a point under
`gpd.sjoin(pts, grid, predicate="within", how="inner")`: the cells whose
clipped geometry strictly contains the point. -/
def sjoinMatches {G : Type} (lib : GeomLib G) (cells : List (Feature G)) (p : ℚ × ℚ) :
    List (Feature G) :=
  cells.filter fun f => lib.within p f.geometry

/-- The inner spatial join: one output row per (point, matching cell)
pair, tagged with the bucket id. -/
def joinRows {G : Type} (lib : GeomLib G) (cells : List (Feature G)) (pts : List PtRow)
    (bucketId : ℤ) : List OutRow :=
  pts.flatMap fun r =>
    (sjoinMatches lib cells (pointOf r)).map fun f =>
      OutRow.mk r.agent r.latitude r.longitude r.time f.cellId bucketId

/-- Content of one CSV file: how many header rows it holds and its data
rows, in file order. -/
structure FileContent where
  headerRows : ℕ
  dataRows : List OutRow
deriving DecidableEq

/-- The file-system state touched by the bucketizer: the set of existing
directories and the files, keyed by (directory, file name). -/
structure FS where
  dirs : List String
  files : List ((String × String) × FileContent)
deriving DecidableEq

/-- Look up a file's content (`out_csv.exists()` / reading it back). -/
def lookupFile (fs : FS) (p : String × String) : Option FileContent :=
  (fs.files.find? fun e => decide (e.1 = p)).map Prod.snd

/-- Store new content for a file path. -/
def writeFile (fs : FS) (p : String × String) (c : FileContent) : FS :=
  FS.mk fs.dirs ((p, c) :: fs.files)

/-- `Path.mkdir(parents=True, exist_ok=True)`: idempotent creation. -/
def mkdirP (d : String) (fs : FS) : FS :=
  if d ∈ fs.dirs then fs else FS.mk (d :: fs.dirs) fs.files

/-- `out_df.to_csv(out_csv, mode="a", header=write_header)` with
`write_header = not out_csv.exists()`: a new file gets one header row
and the data; an existing file keeps its header count and gets the data
appended. -/
def appendCsv (fs : FS) (p : String × String) (rows : List OutRow) : FS :=
  match lookupFile fs p with
  | none => writeFile fs p (FileContent.mk 1 rows)
  | some c => writeFile fs p (FileContent.mk c.headerRows (c.dataRows ++ rows))

/-- Any number of append runs against the same file. -/
def runAppends (fs : FS) (p : String × String) (bs : List (List OutRow)) : FS :=
  bs.foldl (fun s rows => appendCsv s p rows) fs

/-- Python `str` of a natural number: its decimal digit string. -/
def decimalStr (n : ℕ) : String :=
  if n = 0 then "0" else String.mk (((Nat.digits 10 n).reverse).map Nat.digitChar)

/-- Python `str` of an integer (a leading minus sign when negative). -/
def intStr (i : ℤ) : String :=
  if i < 0 then "-" ++ decimalStr i.natAbs else decimalStr i.natAbs

/-- The default per-bucket file name `visits_bucket{bucket_id}.csv`. -/
def visitsName (b : ℤ) : String := "visits_bucket" ++ intStr b ++ ".csv"

/-- The per-cell folder `{out_root}/cell_{cell_id}`. -/
def cellFolder (outRoot : String) (cid : ℕ) : String :=
  outRoot ++ "/cell_" ++ decimalStr cid

/-- Ordering of output rows by the time column. -/
def timeLE (a b : OutRow) : Prop := a.time ≤ b.time

instance : DecidableRel timeLE := fun a b => inferInstanceAs (Decidable (a.time ≤ b.time))

instance : IsTotal OutRow timeLE := ⟨fun a b => le_total a.time b.time⟩

instance : IsTrans OutRow timeLE := ⟨fun _ _ _ h1 h2 => le_trans h1 h2⟩

/-- `out_df.sort_values(by=time_col)`. -/
def sortByTime (l : List OutRow) : List OutRow := List.insertionSort timeLE l

/-- The per-cell body of the writing loop (`agents_to_cell_csvs.py`
lines 140-150): create the cell folder, sort the group by time, and
append it to the per-bucket CSV with header-once semantics. -/
def writeCellCsv (outRoot outName : String) (cid : ℕ) (sub : List OutRow) (fs : FS) : FS :=
  appendCsv (mkdirP (cellFolder outRoot cid) fs) (cellFolder outRoot cid, outName)
    (sortByTime sub)

/-- `joined.groupby("cell_id", sort=True)`: groups keyed by the distinct
cell ids in ascending order, each group holding its rows in join order. -/
def groupByCell (joined : List OutRow) : List (ℕ × List OutRow) :=
  (List.insertionSort (fun a b : ℕ => a ≤ b) ((joined.map OutRow.cellId).dedup)).map
    fun cid => (cid, joined.filter fun r => decide (r.cellId = cid))

/-- The writing phase of `main` in `agents_to_cell_csvs.py` (lines
118-153): if the spatial join is empty, return with the file system
untouched; otherwise create the output root and write every cell group. -/
def bucketize {G : Type} (lib : GeomLib G) (cells : List (Feature G)) (pts : List PtRow)
    (outRoot : String) (bucketId : ℤ) (outName : String) (fs : FS) : FS :=
  if (joinRows lib cells pts bucketId).isEmpty then fs
  else
    (groupByCell (joinRows lib cells pts bucketId)).foldl
      (fun s g => writeCellCsv outRoot outName g.1 g.2 s) (mkdirP outRoot fs)

/-- Unpacking a successful grid build: the cell size was nonzero and the
result is the scan loop's output. -/
theorem buildGrid_ok {G : Type} (lib : GeomLib G) (aoi : G) (cell : ℚ)
    (fs : List (Feature G)) (h : buildGrid lib aoi cell = Except.ok fs) :
    cell ≠ 0
    ∧ fs = gridGo lib aoi (gridParamsOf lib aoi cell).startX
        (gridParamsOf lib aoi cell).startY cell
        (rowMajor (gridParamsOf lib aoi cell).rows.toNat
          (gridParamsOf lib aoi cell).cols.toNat) 0 := by
  by_cases hc : cell = 0
  · rw [buildGrid, if_pos hc] at h
    cases h
  · rw [buildGrid, if_neg hc] at h
    exact ⟨hc, (Except.ok.inj h).symm⟩

/-- Unpacking one emitted geometry: the prepared intersection test
passed, the clip is the square-with-AOI intersection, and it is not
empty. -/
theorem emitRC_some {G : Type} (lib : GeomLib G) (aoi : G) (sx sy cell : ℚ)
    (rc : ℕ × ℕ) (g : G) (h : emitRC lib aoi sx sy cell rc = some g) :
    g = lib.interBox (cellBox sx sy cell rc.1 rc.2) aoi
    ∧ lib.intersects aoi (cellBox sx sy cell rc.1 rc.2) = true
    ∧ lib.isEmpty g = false := by
  by_cases h1 : lib.intersects aoi (cellBox sx sy cell rc.1 rc.2) = true
  · rw [emitRC, if_pos h1] at h
    by_cases h2 : lib.isEmpty (lib.interBox (cellBox sx sy cell rc.1 rc.2) aoi) = true
    · rw [if_pos h2] at h
      cases h
    · rw [if_neg h2] at h
      obtain rfl := (Option.some.inj h).symm
      exact ⟨rfl, h1, Bool.not_eq_true _ ▸ Bool.of_not_eq_true h2⟩
  · rw [emitRC, if_neg h1] at h
    cases h

/-- The `cell_id`s handed out by the scan loop starting from counter `k`
are exactly `k, k+1, ...` in emission order. -/
theorem gridGo_map_cellId {G : Type} (lib : GeomLib G) (aoi : G) (sx sy cell : ℚ) :
    ∀ (l : List (ℕ × ℕ)) (k : ℕ),
      (gridGo lib aoi sx sy cell l k).map Feature.cellId
        = List.range' k (gridGo lib aoi sx sy cell l k).length := by
  intro l
  induction l with
  | nil => intro k; rfl
  | cons rc rest ih =>
    intro k
    rw [gridGo]
    cases hemit : emitRC lib aoi sx sy cell rc with
    | none => exact ih k
    | some g =>
      simp only [List.map_cons, List.length_cons, ih (k + 1), List.range'_succ]

/-- The (row, col) pairs of the emitted features form a sublist of the
scan order. -/
theorem gridGo_rc_sublist {G : Type} (lib : GeomLib G) (aoi : G) (sx sy cell : ℚ) :
    ∀ (l : List (ℕ × ℕ)) (k : ℕ),
      ((gridGo lib aoi sx sy cell l k).map fun f => (f.row, f.col)).Sublist l := by
  intro l
  induction l with
  | nil => intro k; simp [gridGo]
  | cons rc rest ih =>
    intro k
    rw [gridGo]
    cases hemit : emitRC lib aoi sx sy cell rc with
    | none => exact (ih k).cons rc
    | some g => exact (ih (k + 1)).cons₂ rc

/-- Every emitted feature records the clip produced by `emitRC` at its
own (row, col), and its area is the library area of that clip. -/
theorem gridGo_mem_spec {G : Type} (lib : GeomLib G) (aoi : G) (sx sy cell : ℚ) :
    ∀ (l : List (ℕ × ℕ)) (k : ℕ) (f : Feature G), f ∈ gridGo lib aoi sx sy cell l k →
      emitRC lib aoi sx sy cell (f.row, f.col) = some f.geometry
      ∧ f.area = lib.area f.geometry := by
  intro l
  induction l with
  | nil => intro k f h; simp [gridGo] at h
  | cons rc rest ih =>
    intro k f h
    rw [gridGo] at h
    cases hemit : emitRC lib aoi sx sy cell rc with
    | none =>
      rw [hemit] at h
      exact ih k f h
    | some g =>
      rw [hemit] at h
      rcases List.mem_cons.mp h with heq | hmem
      · subst heq
        exact ⟨hemit, rfl⟩
      · exact ih (k + 1) f hmem

/-- The row-major scan order visits each (row, col) pair once. -/
theorem rowMajor_nodup (rows cols : ℕ) : (rowMajor rows cols).Nodup := by
  have h : rowMajor rows cols = (List.range rows).product (List.range cols) := rfl
  rw [h]
  exact List.Nodup.product (List.nodup_range rows) (List.nodup_range cols)

/-- A point in the open interior of the square footprint of one grid
position cannot lie even on the closed square footprint of a different
grid position: distinct cells share at most boundary points, and those
are outside both open interiors. -/
theorem cellBox_open_closed_disjoint (sx sy cell : ℚ) (r c r' c' : ℕ) (p : ℚ × ℚ)
    (hne : (r, c) ≠ (r', c'))
    (h1 : inOpenBox (cellBox sx sy cell r c) p)
    (h2 : p ∈ boxSet (cellBox sx sy cell r' c')) : False := by
  obtain ⟨a1, a2, a3, a4⟩ := h1
  obtain ⟨b1, b2, b3, b4⟩ := h2
  simp only [cellBox] at a1 a2 a3 a4
  simp only [cellBox] at b1 b2 b3 b4
  have hcell : 0 < cell := by linarith
  have hc : c = c' := by
    by_contra hcc
    rcases lt_or_gt_of_ne hcc with hlt | hlt
    · have hcast : ((c : ℚ) + 1) ≤ (c' : ℚ) := by exact_mod_cast hlt
      nlinarith [mul_le_mul_of_nonneg_right hcast (le_of_lt hcell)]
    · have hcast : ((c' : ℚ) + 1) ≤ (c : ℚ) := by exact_mod_cast hlt
      nlinarith [mul_le_mul_of_nonneg_right hcast (le_of_lt hcell)]
  have hr : r = r' := by
    by_contra hrr
    rcases lt_or_gt_of_ne hrr with hlt | hlt
    · have hcast : ((r : ℚ) + 1) ≤ (r' : ℚ) := by exact_mod_cast hlt
      nlinarith [mul_le_mul_of_nonneg_right hcast (le_of_lt hcell)]
    · have hcast : ((r' : ℚ) + 1) ≤ (r : ℚ) := by exact_mod_cast hlt
      nlinarith [mul_le_mul_of_nonneg_right hcast (le_of_lt hcell)]
  exact hne (by rw [hc, hr])

theorem digitChar_injOn :
    ∀ d1, d1 < 10 → ∀ d2, d2 < 10 → Nat.digitChar d1 = Nat.digitChar d2 → d1 = d2 := by
  decide

theorem digitChar_ne_minus : ∀ d, d < 10 → Nat.digitChar d ≠ '-' := by
  decide

theorem digitChar_eq_zeroChar : ∀ d, d < 10 → Nat.digitChar d = '0' → d = 0 := by
  decide

theorem map_digitChar_inj :
    ∀ l1 l2 : List ℕ, (∀ x ∈ l1, x < 10) → (∀ x ∈ l2, x < 10) →
      l1.map Nat.digitChar = l2.map Nat.digitChar → l1 = l2 := by
  intro l1
  induction l1 with
  | nil =>
    intro l2 _ _ h
    cases l2 with
    | nil => rfl
    | cons b t2 => simp at h
  | cons a t ih =>
    intro l2 h1 h2 h
    cases l2 with
    | nil => simp at h
    | cons b t2 =>
      simp only [List.map_cons, List.cons.injEq] at h
      have ha := digitChar_injOn a (h1 a (List.mem_cons_self a t)) b
        (h2 b (List.mem_cons_self b t2)) h.1
      rw [ha, ih t2 (fun x hx => h1 x (List.mem_cons_of_mem a hx))
        (fun x hx => h2 x (List.mem_cons_of_mem b hx)) h.2]

theorem decimalStr_eq_zeroStr {n : ℕ} (h : decimalStr n = "0") : n = 0 := by
  by_cases hn : n = 0
  · exact hn
  · exfalso
    rw [decimalStr, if_neg hn] at h
    have hd : ((Nat.digits 10 n).reverse).map Nat.digitChar = ['0'] := by
      have := congrArg String.data h
      simpa using this
    cases hrev : (Nat.digits 10 n).reverse with
    | nil => rw [hrev] at hd; simp at hd
    | cons d t =>
      rw [hrev] at hd
      simp only [List.map_cons, List.cons.injEq, List.map_eq_nil_iff] at hd
      have hdigs : Nat.digits 10 n = [d] := by
        have h1 : (Nat.digits 10 n).reverse = [d] := by rw [hrev, hd.2]
        have h2 := congrArg List.reverse h1
        simpa using h2
      have hdlt : d < 10 :=
        Nat.digits_lt_base (by norm_num) (by rw [hdigs]; exact List.mem_cons_self d [])
      have hd0 : d = 0 := digitChar_eq_zeroChar d hdlt hd.1
      have : n = 0 := by
        have := Nat.ofDigits_digits 10 n
        rw [hdigs, hd0] at this
        simpa [Nat.ofDigits] using this.symm
      exact hn this

theorem decimalStr_inj (m n : ℕ) (h : decimalStr m = decimalStr n) : m = n := by
  by_cases hm : m = 0 <;> by_cases hn : n = 0
  · rw [hm, hn]
  · subst hm
    exact (decimalStr_eq_zeroStr (h.symm.trans rfl)).symm
  · subst hn
    exact decimalStr_eq_zeroStr (h.trans rfl)
  · rw [decimalStr, if_neg hm, decimalStr, if_neg hn] at h
    have hd : ((Nat.digits 10 m).reverse).map Nat.digitChar
        = ((Nat.digits 10 n).reverse).map Nat.digitChar := congrArg String.data h
    have hrev := map_digitChar_inj _ _
      (fun x hx => Nat.digits_lt_base (by norm_num) (List.mem_reverse.mp hx))
      (fun x hx => Nat.digits_lt_base (by norm_num) (List.mem_reverse.mp hx)) hd
    have hdig := List.reverse_injective hrev
    calc m = Nat.ofDigits 10 (Nat.digits 10 m) := (Nat.ofDigits_digits 10 m).symm
    _ = Nat.ofDigits 10 (Nat.digits 10 n) := by rw [hdig]
    _ = n := Nat.ofDigits_digits 10 n

theorem decimalStr_no_minus (n : ℕ) : ∀ c ∈ (decimalStr n).data, c ≠ '-' := by
  intro c hc
  by_cases hn : n = 0
  · rw [hn, decimalStr, if_pos rfl] at hc
    have : c = '0' := by simpa using hc
    rw [this]
    decide
  · rw [decimalStr, if_neg hn] at hc
    obtain ⟨d, hd, rfl⟩ := List.mem_map.mp hc
    exact digitChar_ne_minus d (Nat.digits_lt_base (by norm_num) (List.mem_reverse.mp hd))

theorem intStr_inj (i j : ℤ) (h : intStr i = intStr j) : i = j := by
  by_cases hi : i < 0 <;> by_cases hj : j < 0
  · rw [intStr, if_pos hi, intStr, if_pos hj] at h
    have hdata := congrArg String.data h
    rw [String.data_append, String.data_append] at hdata
    have hd := List.append_cancel_left hdata
    have := decimalStr_inj _ _ (String.ext hd)
    omega
  · exfalso
    rw [intStr, if_pos hi, intStr, if_neg hj] at h
    have hdata := congrArg String.data h
    rw [String.data_append] at hdata
    have hm : '-' ∈ (decimalStr j.natAbs).data := by
      rw [← hdata]
      exact List.mem_append_left _ (by decide)
    exact decimalStr_no_minus _ '-' hm rfl
  · exfalso
    rw [intStr, if_neg hi, intStr, if_pos hj] at h
    have hdata := congrArg String.data h
    rw [String.data_append] at hdata
    have hm : '-' ∈ (decimalStr i.natAbs).data := by
      rw [hdata]
      exact List.mem_append_left _ (by decide)
    exact decimalStr_no_minus _ '-' hm rfl
  · rw [intStr, if_neg hi, intStr, if_neg hj] at h
    have := decimalStr_inj _ _ h
    omega

/-- Reading a file back right after writing it. -/
theorem lookupFile_writeFile_same (fs : FS) (p : String × String) (c : FileContent) :
    lookupFile (writeFile fs p c) p = some c := by
  simp only [lookupFile, writeFile]
  rw [List.find?_cons_of_pos _ (by simp)]
  rfl

/-- Writing one file leaves every other path unchanged. -/
theorem lookupFile_writeFile_other (fs : FS) (p q : String × String) (c : FileContent)
    (hne : p ≠ q) : lookupFile (writeFile fs q c) p = lookupFile fs p := by
  simp only [lookupFile, writeFile]
  rw [List.find?_cons_of_neg _ (by simp [Ne.symm hne])]

/-- An append never changes the header count of an already-existing
file, so the count survives any further run. -/
theorem runAppends_headerRows (p : String × String) :
    ∀ (bs : List (List OutRow)) (fs : FS) (c : FileContent),
      lookupFile fs p = some c →
      ∃ c', lookupFile (runAppends fs p bs) p = some c'
        ∧ c'.headerRows = c.headerRows := by
  intro bs
  induction bs with
  | nil => intro fs c h; exact ⟨c, h, rfl⟩
  | cons rows rest ih =>
    intro fs c h
    have hstep : lookupFile (appendCsv fs p rows) p
        = some (FileContent.mk c.headerRows (c.dataRows ++ rows)) := by
      rw [appendCsv, h]
      exact lookupFile_writeFile_same _ _ _
    obtain ⟨c', hc', hh⟩ := ih (appendCsv fs p rows) _ hstep
    exact ⟨c', hc', hh⟩

/-- The (row, col) pairs of the features emitted over a duplicate-free
scan list are pairwise distinct. -/
theorem gridGo_pairwise_rc {G : Type} (lib : GeomLib G) (aoi : G) (sx sy cell : ℚ)
    (l : List (ℕ × ℕ)) (hnd : l.Nodup) (k : ℕ) :
    (gridGo lib aoi sx sy cell l k).Pairwise
      (fun a b => (a.row, a.col) ≠ (b.row, b.col)) := by
  have hsub := gridGo_rc_sublist lib aoi sx sy cell l k
  have hnd2 := List.Nodup.sublist hsub hnd
  exact List.pairwise_map.mp hnd2

/-- A sample AOI: the 250 m x 150 m axis-aligned rectangle with
lower-left corner at the origin. -/
def aoiRect : Region := [⟨0, 0, 250, 150⟩]

/-- A zero-area (degenerate) AOI: a vertical segment at x = 5. -/
def aoiDegen : Region := [⟨5, 0, 5, 10⟩]

/-- The first cell the builder emits over `aoiRect` with cell size 100. -/
def cellZero : Feature Region := ⟨0, 0, 0, 10000, [⟨0, 0, 100, 100⟩]⟩

/-- The six cells the builder emits over `aoiRect` with cell size 100. -/
def gridFs0 : List (Feature Region) :=
  [cellZero, ⟨1, 0, 1, 10000, [⟨100, 0, 200, 100⟩]⟩,
   ⟨2, 0, 2, 5000, [⟨200, 0, 250, 100⟩]⟩, ⟨3, 1, 0, 5000, [⟨0, 100, 100, 150⟩]⟩,
   ⟨4, 1, 1, 5000, [⟨100, 100, 200, 150⟩]⟩, ⟨5, 1, 2, 2500, [⟨200, 100, 250, 150⟩]⟩]

/-- Claim C1: for every AOI and every cell emitted by the grid builder,
the cell's geometry equals (hence is contained in) the intersection of
its square footprint with the projected AOI, the geometry is non-empty,
and a cell whose square footprint does not intersect the AOI is never
emitted (its footprint-AOI intersection is non-empty). -/
theorem emitted_cell_geometry_spec {G : Type} (lib : GeomLib G) (aoi : G) (cell : ℚ)
    (fs : List (Feature G)) (f : Feature G)
    (hok : buildGrid lib aoi cell = Except.ok fs) (hf : f ∈ fs) :
    lib.toSet f.geometry = boxSet (cellFootprint lib aoi cell f) ∩ lib.toSet aoi
    ∧ (lib.toSet f.geometry).Nonempty
    ∧ lib.toSet f.geometry ⊆ lib.toSet aoi
    ∧ (boxSet (cellFootprint lib aoi cell f) ∩ lib.toSet aoi).Nonempty := by
  obtain ⟨hc, rfl⟩ := buildGrid_ok lib aoi cell fs hok
  obtain ⟨hemit, harea⟩ := gridGo_mem_spec lib aoi _ _ cell _ 0 f hf
  obtain ⟨hgeom, hint, hne⟩ := emitRC_some lib aoi _ _ cell (f.row, f.col) f.geometry hemit
  have hset : lib.toSet f.geometry
      = boxSet (cellFootprint lib aoi cell f) ∩ lib.toSet aoi := by
    rw [hgeom]
    exact lib.interBox_toSet _ _
  have hnonempty : (lib.toSet f.geometry).Nonempty := by
    rw [Set.nonempty_iff_ne_empty]
    intro he
    have h2 := (lib.isEmpty_iff f.geometry).mpr he
    exact absurd (h2.symm.trans hne) (by decide)
  refine ⟨hset, hnonempty, ?_, ?_⟩
  · rw [hset]
    exact Set.inter_subset_right
  · rw [← hset]
    exact hnonempty

theorem emitted_cell_geometry_spec_witness :
    buildGrid rectLib aoiRect 100 = Except.ok gridFs0
    ∧ cellZero ∈ gridFs0
    ∧ (rectLib.toSet cellZero.geometry
        = boxSet (cellFootprint rectLib aoiRect 100 cellZero) ∩ rectLib.toSet aoiRect
      ∧ (rectLib.toSet cellZero.geometry).Nonempty
      ∧ rectLib.toSet cellZero.geometry ⊆ rectLib.toSet aoiRect
      ∧ (boxSet (cellFootprint rectLib aoiRect 100 cellZero)
          ∩ rectLib.toSet aoiRect).Nonempty) :=
  ⟨by with_unfolding_all rfl, by rw [gridFs0]; exact List.mem_cons_self _ _,
    emitted_cell_geometry_spec rectLib aoiRect 100 gridFs0 cellZero
      (by with_unfolding_all rfl) (by rw [gridFs0]; exact List.mem_cons_self _ _)⟩

/-- Claim C2: the `cell_id` values of the emitted cells are exactly
`0 .. N-1` in emission order (no gaps or repeats), they strictly
increase, and the emission order is a subsequence of the row-major
scan order. -/
theorem cell_ids_exactly_range {G : Type} (lib : GeomLib G) (aoi : G) (cell : ℚ)
    (fs : List (Feature G)) (hok : buildGrid lib aoi cell = Except.ok fs) :
    fs.map Feature.cellId = List.range fs.length
    ∧ (fs.map Feature.cellId).Pairwise (· < ·)
    ∧ (fs.map fun f => (f.row, f.col)).Sublist
        (rowMajor (gridParamsOf lib aoi cell).rows.toNat
          (gridParamsOf lib aoi cell).cols.toNat) := by
  obtain ⟨hc, rfl⟩ := buildGrid_ok lib aoi cell fs hok
  refine ⟨?_, ?_, gridGo_rc_sublist lib aoi _ _ cell _ 0⟩
  · rw [gridGo_map_cellId lib aoi _ _ cell _ 0, List.range_eq_range']
  · rw [gridGo_map_cellId lib aoi _ _ cell _ 0, ← List.range_eq_range']
    exact List.pairwise_lt_range _

theorem cell_ids_exactly_range_witness :
    buildGrid rectLib aoiRect 100 = Except.ok gridFs0
    ∧ (gridFs0.map Feature.cellId = List.range gridFs0.length
      ∧ (gridFs0.map Feature.cellId).Pairwise (· < ·)
      ∧ (gridFs0.map fun f => (f.row, f.col)).Sublist
          (rowMajor (gridParamsOf rectLib aoiRect 100).rows.toNat
            (gridParamsOf rectLib aoiRect 100).cols.toNat)) :=
  ⟨by with_unfolding_all rfl,
    cell_ids_exactly_range rectLib aoiRect 100 gridFs0 (by with_unfolding_all rfl)⟩

/-- Claim C3 counterexample: at longitude 180 (a legal longitude, the
antimeridian) the selection computes zone 61 and EPSG 32661, which is
not one of the 60 UTM zones, refuting the claim as stated for every
longitude. -/
theorem utm_zone_61_at_antimeridian :
    utmZone 180 = 61 ∧ best_utm 180 10 = 32661 ∧ 60 < utmZone 180 := by
  have h : utmZone 180 = 61 := by with_unfolding_all rfl
  refine ⟨h, ?_, by rw [h]; decide⟩
  rw [best_utm, if_pos (by norm_num), h]
  decide

/-- Claim C3 (amended): for every longitude in `[-180, 180)` and every
latitude, the selection is a pure function of (lon, lat) that picks a
zone in `1 .. 60` whose six-degree band covers the longitude, and
returns EPSG `32600 + zone` when the latitude is non-negative and
`32700 + zone` otherwise.  (At the single longitude 180 the formula
yields zone 61 instead.) -/
theorem best_utm_zone_spec (lon lat : ℚ) (h1 : -180 ≤ lon) (h2 : lon < 180) :
    1 ≤ utmZone lon ∧ utmZone lon ≤ 60
    ∧ -180 + 6 * ((utmZone lon : ℚ) - 1) ≤ lon
    ∧ lon < -180 + 6 * (utmZone lon : ℚ)
    ∧ best_utm lon lat = (if 0 ≤ lat then 32600 else 32700) + utmZone lon := by
  have ha : (0 : ℚ) ≤ (lon + 180) / 6 := by linarith
  have hb : (lon + 180) / 6 < 60 := by linarith
  have h3 : 0 ≤ ⌊(lon + 180) / 6⌋ := Int.floor_nonneg.mpr ha
  have h4 : ⌊(lon + 180) / 6⌋ < 60 := by
    rw [Int.floor_lt]
    exact_mod_cast hb
  have hfl : ((⌊(lon + 180) / 6⌋ : ℤ) : ℚ) ≤ (lon + 180) / 6 := Int.floor_le _
  have hfu : (lon + 180) / 6 < (⌊(lon + 180) / 6⌋ : ℚ) + 1 := Int.lt_floor_add_one _
  refine ⟨?_, ?_, ?_, ?_, ?_⟩
  · rw [utmZone]
    omega
  · rw [utmZone]
    omega
  · rw [utmZone]
    push_cast
    linarith
  · rw [utmZone]
    push_cast
    linarith
  · by_cases hlat : 0 ≤ lat
    · rw [best_utm, if_pos hlat, if_pos hlat]
    · rw [best_utm, if_neg hlat, if_neg hlat]

theorem best_utm_zone_spec_witness :
    (-180 ≤ (3 : ℚ)) ∧ ((3 : ℚ) < 180)
    ∧ (1 ≤ utmZone 3 ∧ utmZone 3 ≤ 60
      ∧ -180 + 6 * ((utmZone 3 : ℚ) - 1) ≤ 3
      ∧ (3 : ℚ) < -180 + 6 * (utmZone 3 : ℚ)
      ∧ best_utm 3 (-5) = (if (0 : ℚ) ≤ -5 then 32600 else 32700) + utmZone 3) :=
  ⟨by norm_num, by norm_num, best_utm_zone_spec 3 (-5) (by norm_num) (by norm_num)⟩

/-- An AOI containing a degenerate vertical segment lying exactly on
the grid line x = 100, plus two small squares that stretch the bounding
box so that the grid has one column on each side of that line. -/
def aoiBoundary : Region :=
  [⟨100, 20, 100, 80⟩, ⟨-50, 0, -40, 10⟩, ⟨150, 0, 160, 10⟩]

/-- The emitted cell left of the line x = 100: its clipped geometry is
the degenerate segment on its own right edge. -/
def cellLeftOfLine : Feature Region := ⟨1, 0, 1, 0, [⟨100, 20, 100, 80⟩]⟩

/-- The emitted cell right of the line x = 100: its clipped geometry
contains the same degenerate segment, on its own left edge. -/
def cellRightOfLine : Feature Region :=
  ⟨2, 0, 2, 100, [⟨100, 20, 100, 80⟩, ⟨150, 0, 160, 10⟩]⟩

/-- The full build output over `aoiBoundary` with cell size 100. -/
def gridFsB : List (Feature Region) :=
  [⟨0, 0, 0, 100, [⟨-50, 0, -40, 10⟩]⟩, cellLeftOfLine, cellRightOfLine]

/-- Claim C4 counterexample: the point (100, 50) lies exactly on the
shared boundary x = 100 of the adjacent cells `cellLeftOfLine` and
`cellRightOfLine` (the right edge of the one and the left edge of the
other); both cells' clipped geometries contain the AOI's degenerate
segment through that point, DE-9IM `within` holds for the point in the
relative interior of that segment in both cells, and the spatial join
matches the point to two cells — duplicate rows, refuting the claim. -/
theorem boundary_point_matched_twice :
    buildGrid rectLib aoiBoundary 100 = Except.ok gridFsB
    ∧ (cellFootprint rectLib aoiBoundary 100 cellLeftOfLine).maxx = 100
    ∧ (cellFootprint rectLib aoiBoundary 100 cellRightOfLine).minx = 100
    ∧ sjoinMatches rectLib gridFsB (100, 50) = [cellLeftOfLine, cellRightOfLine]
    ∧ 2 ≤ (sjoinMatches rectLib gridFsB (100, 50)).length := by
  refine ⟨?_, ?_, ?_, ?_, ?_⟩
  · with_unfolding_all rfl
  · with_unfolding_all rfl
  · with_unfolding_all rfl
  · with_unfolding_all rfl
  · with_unfolding_all rfl

/-- Claim C4 (amended): duplicate assignments are confined to shared
footprint boundaries.  Whenever the strict `within` spatial join
matches one point to two distinct emitted cells, those cells sit at
distinct grid positions and the point lies on the closed square
footprints of both while belonging to the open interior of neither —
it lies exactly on a shared grid line (as in the counterexample the
degenerate clipped geometries on that line make this reachable).  In
particular, a point in the open interior of some cell's square is
never also assigned to any other cell. -/
theorem sjoin_duplicates_only_on_shared_boundary {G : Type} (lib : GeomLib G)
    (aoi : G) (cell : ℚ) (fs : List (Feature G)) (p : ℚ × ℚ) (f1 f2 : Feature G)
    (hok : buildGrid lib aoi cell = Except.ok fs)
    (h1 : f1 ∈ sjoinMatches lib fs p) (h2 : f2 ∈ sjoinMatches lib fs p)
    (hne : f1 ≠ f2) :
    (f1.row, f1.col) ≠ (f2.row, f2.col)
    ∧ p ∈ boxSet (cellFootprint lib aoi cell f1)
    ∧ p ∈ boxSet (cellFootprint lib aoi cell f2)
    ∧ ¬ inOpenBox (cellFootprint lib aoi cell f1) p
    ∧ ¬ inOpenBox (cellFootprint lib aoi cell f2) p := by
  obtain ⟨hc, rfl⟩ := buildGrid_ok lib aoi cell fs hok
  obtain ⟨h1f, h1w⟩ := List.mem_filter.mp h1
  obtain ⟨h2f, h2w⟩ := List.mem_filter.mp h2
  have hpw := gridGo_pairwise_rc lib aoi (gridParamsOf lib aoi cell).startX
    (gridParamsOf lib aoi cell).startY cell
    (rowMajor (gridParamsOf lib aoi cell).rows.toNat
      (gridParamsOf lib aoi cell).cols.toNat)
    (rowMajor_nodup (gridParamsOf lib aoi cell).rows.toNat
      (gridParamsOf lib aoi cell).cols.toNat) 0
  have hrc : (f1.row, f1.col) ≠ (f2.row, f2.col) :=
    List.Pairwise.forall (fun _ _ h => Ne.symm h) hpw h1f h2f hne
  obtain ⟨hemit1, _⟩ := gridGo_mem_spec lib aoi _ _ cell _ 0 f1 h1f
  obtain ⟨hg1, _, _⟩ := emitRC_some lib aoi _ _ cell (f1.row, f1.col) f1.geometry hemit1
  obtain ⟨hemit2, _⟩ := gridGo_mem_spec lib aoi _ _ cell _ 0 f2 h2f
  obtain ⟨hg2, _, _⟩ := emitRC_some lib aoi _ _ cell (f2.row, f2.col) f2.geometry hemit2
  have hp1 : p ∈ boxSet (cellFootprint lib aoi cell f1) := by
    have hmem := lib.within_mem p f1.geometry h1w
    rw [hg1, lib.interBox_toSet] at hmem
    exact hmem.1
  have hp2 : p ∈ boxSet (cellFootprint lib aoi cell f2) := by
    have hmem := lib.within_mem p f2.geometry h2w
    rw [hg2, lib.interBox_toSet] at hmem
    exact hmem.1
  refine ⟨hrc, hp1, hp2, ?_, ?_⟩
  · intro hopen
    exact cellBox_open_closed_disjoint (gridParamsOf lib aoi cell).startX
      (gridParamsOf lib aoi cell).startY cell f1.row f1.col f2.row f2.col p
      hrc hopen hp2
  · intro hopen
    exact cellBox_open_closed_disjoint (gridParamsOf lib aoi cell).startX
      (gridParamsOf lib aoi cell).startY cell f2.row f2.col f1.row f1.col p
      (Ne.symm hrc) hopen hp1

theorem sjoin_duplicates_only_on_shared_boundary_witness :
    buildGrid rectLib aoiBoundary 100 = Except.ok gridFsB
    ∧ cellLeftOfLine ∈ sjoinMatches rectLib gridFsB (100, 50)
    ∧ cellRightOfLine ∈ sjoinMatches rectLib gridFsB (100, 50)
    ∧ cellLeftOfLine ≠ cellRightOfLine
    ∧ ((cellLeftOfLine.row, cellLeftOfLine.col)
        ≠ (cellRightOfLine.row, cellRightOfLine.col)
      ∧ (100, 50) ∈ boxSet (cellFootprint rectLib aoiBoundary 100 cellLeftOfLine)
      ∧ (100, 50) ∈ boxSet (cellFootprint rectLib aoiBoundary 100 cellRightOfLine)
      ∧ ¬ inOpenBox (cellFootprint rectLib aoiBoundary 100 cellLeftOfLine) (100, 50)
      ∧ ¬ inOpenBox (cellFootprint rectLib aoiBoundary 100 cellRightOfLine) (100, 50)) := by
  have hok : buildGrid rectLib aoiBoundary 100 = Except.ok gridFsB := by
    with_unfolding_all rfl
  have hs : sjoinMatches rectLib gridFsB ((100 : ℚ), (50 : ℚ))
      = [cellLeftOfLine, cellRightOfLine] := by
    with_unfolding_all rfl
  have hm1 : cellLeftOfLine ∈ sjoinMatches rectLib gridFsB ((100 : ℚ), (50 : ℚ)) := by
    rw [hs]
    exact List.mem_cons_self _ _
  have hm2 : cellRightOfLine ∈ sjoinMatches rectLib gridFsB ((100 : ℚ), (50 : ℚ)) := by
    rw [hs]
    exact List.mem_cons_of_mem _ (List.mem_cons_self _ _)
  have hne : cellLeftOfLine ≠ cellRightOfLine := fun h =>
    absurd (congrArg Feature.cellId h) (by decide)
  exact ⟨hok, hm1, hm2, hne,
    sjoin_duplicates_only_on_shared_boundary rectLib aoiBoundary 100 gridFsB
      (100, 50) cellLeftOfLine cellRightOfLine hok hm1 hm2 hne⟩

/-- Claim C5 counterexample: `aoiDegen` is a degenerate AOI of planar
area zero, yet the builder emits one cell for it (the clipped geometry
is the degenerate segment, which is non-empty), refuting "degenerate
(zero-area) AOIs yield zero cells". -/
theorem zero_area_aoi_emits_a_cell :
    regionArea aoiDegen = 0
    ∧ buildGrid rectLib aoiDegen 100 = Except.ok [⟨0, 0, 0, 0, [⟨5, 0, 5, 10⟩]⟩] := by
  constructor
  · with_unfolding_all rfl
  · with_unfolding_all rfl

/-- Claim C5 (amended): the zero-cells half of the claim is false (the
counterexample above emits one cell for a zero-area AOI); the no-error
half holds on the modelled scope: for every AOI with non-empty extent —
degenerate or not — and every nonzero cell size the run completes
without an error, and each emitted cell carries a non-empty clipped
geometry contained in the AOI (hence of zero area when the AOI has zero
area).  An AOI with empty extent is outside the modelled scope: the
script fails earlier, at the centroid (line 71) and the bounds
unpack/floor (lines 81-82) of an empty geometry, before the loop
modelled here. -/
theorem degenerate_aoi_no_failure {G : Type} (lib : GeomLib G) (aoi : G) (cell : ℚ)
    (hc : cell ≠ 0) (hne : (lib.toSet aoi).Nonempty) :
    ∃ fs, buildGrid lib aoi cell = Except.ok fs
      ∧ ∀ f ∈ fs, (lib.toSet f.geometry).Nonempty
        ∧ lib.toSet f.geometry ⊆ lib.toSet aoi := by
  have hok : buildGrid lib aoi cell = Except.ok (gridGo lib aoi
      (gridParamsOf lib aoi cell).startX (gridParamsOf lib aoi cell).startY cell
      (rowMajor (gridParamsOf lib aoi cell).rows.toNat
        (gridParamsOf lib aoi cell).cols.toNat) 0) := by
    rw [buildGrid, if_neg hc]
  refine ⟨_, hok, ?_⟩
  intro f hf
  obtain ⟨hemit, _⟩ := gridGo_mem_spec lib aoi _ _ cell _ 0 f hf
  obtain ⟨hgeom, _, hnotempty⟩ :=
    emitRC_some lib aoi _ _ cell (f.row, f.col) f.geometry hemit
  constructor
  · rw [Set.nonempty_iff_ne_empty]
    intro he
    have h2 := (lib.isEmpty_iff f.geometry).mpr he
    exact absurd (h2.symm.trans hnotempty) (by decide)
  · rw [hgeom, lib.interBox_toSet]
    exact Set.inter_subset_right

theorem degenerate_aoi_no_failure_witness :
    ((100 : ℚ) ≠ 0) ∧ (rectLib.toSet aoiDegen).Nonempty
    ∧ (∃ fs, buildGrid rectLib aoiDegen 100 = Except.ok fs
        ∧ ∀ f ∈ fs, (rectLib.toSet f.geometry).Nonempty
          ∧ rectLib.toSet f.geometry ⊆ rectLib.toSet aoiDegen) := by
  have hne : (rectLib.toSet aoiDegen).Nonempty :=
    ⟨(5, 5), ⟨5, 0, 5, 10⟩, List.mem_cons_self _ _,
      by norm_num [boxSet, Set.mem_setOf_eq]⟩
  exact ⟨by norm_num, hne,
    degenerate_aoi_no_failure rectLib aoiDegen 100 (by norm_num) hne⟩

/-- Claim C6 counterexample: a non-positive cell size does not abort the
run: with cellSize = -100 over `aoiRect` the builder completes and
returns an (empty) output instead of failing with an input error. -/
theorem negative_cell_size_completes :
    buildGrid rectLib aoiRect (-100) = Except.ok [] := by
  with_unfolding_all rfl

/-- Claim C6 (amended): the builder performs no cell-size validation:
every negative cell size completes without any error (the derived
column and row counts become non-positive, so no cells are scanned) and
cell size zero fails, but with an uncaught division-by-zero error, not
a descriptive input error.  (In the script itself `CELL` is the
hard-coded constant 100.0, so the condition cannot arise.) -/
theorem no_cell_size_validation {G : Type} (lib : GeomLib G) (aoi : G) (cell : ℚ)
    (hneg : cell < 0) :
    (∃ fs, buildGrid lib aoi cell = Except.ok fs)
    ∧ buildGrid lib aoi 0
        = Except.error "ZeroDivisionError: float division by zero" := by
  constructor
  · exact ⟨_, by rw [buildGrid, if_neg (ne_of_lt hneg)]⟩
  · rw [buildGrid, if_pos rfl]

theorem no_cell_size_validation_witness :
    ((-100 : ℚ) < 0)
    ∧ ((∃ fs, buildGrid rectLib aoiRect (-100) = Except.ok fs)
      ∧ buildGrid rectLib aoiRect 0
          = Except.error "ZeroDivisionError: float division by zero") :=
  ⟨by norm_num, no_cell_size_validation rectLib aoiRect (-100) (by norm_num)⟩

/-- Claim C7: for every bounding box and positive cell size, the grid
origin is the greatest multiple of the cell size at or below the
bounding-box minimum in each axis, and the derived column and row
counts make the grid of squares cover the whole bounding box. -/
theorem grid_anchor_and_coverage (minx miny maxx maxy cell : ℚ)
    (hcell : 0 < cell) (hx : minx ≤ maxx) (hy : miny ≤ maxy) :
    (∃ k : ℤ, (mkGridParams minx miny maxx maxy cell).startX = (k : ℚ) * cell)
    ∧ (mkGridParams minx miny maxx maxy cell).startX ≤ minx
    ∧ minx < (mkGridParams minx miny maxx maxy cell).startX + cell
    ∧ (∃ k : ℤ, (mkGridParams minx miny maxx maxy cell).startY = (k : ℚ) * cell)
    ∧ (mkGridParams minx miny maxx maxy cell).startY ≤ miny
    ∧ miny < (mkGridParams minx miny maxx maxy cell).startY + cell
    ∧ maxx ≤ (mkGridParams minx miny maxx maxy cell).startX
        + ((mkGridParams minx miny maxx maxy cell).cols : ℚ) * cell
    ∧ maxy ≤ (mkGridParams minx miny maxx maxy cell).startY
        + ((mkGridParams minx miny maxx maxy cell).rows : ℚ) * cell := by
  have hne := ne_of_gt hcell
  simp only [mkGridParams]
  have hx1 : (⌊minx / cell⌋ : ℚ) * cell ≤ minx := by
    have h1 := mul_le_mul_of_nonneg_right (Int.floor_le (minx / cell)) (le_of_lt hcell)
    rwa [div_mul_cancel₀ minx hne] at h1
  have hx2 : minx < (⌊minx / cell⌋ : ℚ) * cell + cell := by
    have h2 := mul_lt_mul_of_pos_right (Int.lt_floor_add_one (minx / cell)) hcell
    rw [div_mul_cancel₀ minx hne] at h2
    nlinarith
  have hy1 : (⌊miny / cell⌋ : ℚ) * cell ≤ miny := by
    have h1 := mul_le_mul_of_nonneg_right (Int.floor_le (miny / cell)) (le_of_lt hcell)
    rwa [div_mul_cancel₀ miny hne] at h1
  have hy2 : miny < (⌊miny / cell⌋ : ℚ) * cell + cell := by
    have h2 := mul_lt_mul_of_pos_right (Int.lt_floor_add_one (miny / cell)) hcell
    rw [div_mul_cancel₀ miny hne] at h2
    nlinarith
  have hcx : maxx ≤ (⌊minx / cell⌋ : ℚ) * cell
      + ((⌈(maxx - (⌊minx / cell⌋ : ℚ) * cell) / cell⌉ : ℚ)) * cell := by
    have h3 := mul_le_mul_of_nonneg_right
      (Int.le_ceil ((maxx - (⌊minx / cell⌋ : ℚ) * cell) / cell)) (le_of_lt hcell)
    rw [div_mul_cancel₀ _ hne] at h3
    linarith
  have hcy : maxy ≤ (⌊miny / cell⌋ : ℚ) * cell
      + ((⌈(maxy - (⌊miny / cell⌋ : ℚ) * cell) / cell⌉ : ℚ)) * cell := by
    have h3 := mul_le_mul_of_nonneg_right
      (Int.le_ceil ((maxy - (⌊miny / cell⌋ : ℚ) * cell) / cell)) (le_of_lt hcell)
    rw [div_mul_cancel₀ _ hne] at h3
    linarith
  exact ⟨⟨⌊minx / cell⌋, rfl⟩, hx1, hx2, ⟨⌊miny / cell⌋, rfl⟩, hy1, hy2, hcx, hcy⟩

theorem grid_anchor_and_coverage_witness :
    ((0 : ℚ) < 100) ∧ ((3 : ℚ) ≤ 250) ∧ ((7 : ℚ) ≤ 150)
    ∧ ((∃ k : ℤ, (mkGridParams 3 7 250 150 100).startX = (k : ℚ) * 100)
      ∧ (mkGridParams 3 7 250 150 100).startX ≤ 3
      ∧ (3 : ℚ) < (mkGridParams 3 7 250 150 100).startX + 100
      ∧ (∃ k : ℤ, (mkGridParams 3 7 250 150 100).startY = (k : ℚ) * 100)
      ∧ (mkGridParams 3 7 250 150 100).startY ≤ 7
      ∧ (7 : ℚ) < (mkGridParams 3 7 250 150 100).startY + 100
      ∧ (250 : ℚ) ≤ (mkGridParams 3 7 250 150 100).startX
          + ((mkGridParams 3 7 250 150 100).cols : ℚ) * 100
      ∧ (150 : ℚ) ≤ (mkGridParams 3 7 250 150 100).startY
          + ((mkGridParams 3 7 250 150 100).rows : ℚ) * 100) :=
  ⟨by norm_num, by norm_num, by norm_num,
    grid_anchor_and_coverage 3 7 250 150 100 (by norm_num) (by norm_num) (by norm_num)⟩

/-- Claim C8: per-bucket CSV appends write a header row exactly when the
file does not yet exist and plain data otherwise; hence after any
number of append runs a file created by the first run holds exactly one
header row; appends to one path leave every other file untouched; and
distinct bucket identifiers yield distinct per-bucket file names inside
the same cell directory. -/
theorem csv_append_header_once :
    (∀ (fs : FS) (p : String × String) (rows : List OutRow),
      lookupFile fs p = none →
        lookupFile (appendCsv fs p rows) p = some (FileContent.mk 1 rows))
    ∧ (∀ (fs : FS) (p : String × String) (rows : List OutRow) (c : FileContent),
      lookupFile fs p = some c →
        lookupFile (appendCsv fs p rows) p
          = some (FileContent.mk c.headerRows (c.dataRows ++ rows)))
    ∧ (∀ (fs : FS) (p q : String × String) (rows : List OutRow), p ≠ q →
      lookupFile (appendCsv fs q rows) p = lookupFile fs p)
    ∧ (∀ (fs : FS) (p : String × String) (bs : List (List OutRow)),
      lookupFile fs p = none → bs ≠ [] →
      ∃ c, lookupFile (runAppends fs p bs) p = some c ∧ c.headerRows = 1)
    ∧ (∀ b b' : ℤ, b ≠ b' → visitsName b ≠ visitsName b') := by
  refine ⟨?_, ?_, ?_, ?_, ?_⟩
  · intro fs p rows h
    rw [appendCsv, h]
    exact lookupFile_writeFile_same _ _ _
  · intro fs p rows c h
    rw [appendCsv, h]
    exact lookupFile_writeFile_same _ _ _
  · intro fs p q rows hne
    rw [appendCsv]
    cases hq : lookupFile fs q with
    | none => exact lookupFile_writeFile_other _ _ _ _ hne
    | some c => exact lookupFile_writeFile_other _ _ _ _ hne
  · intro fs p bs h hne
    cases bs with
    | nil => exact absurd rfl hne
    | cons rows rest =>
      have hfirst : lookupFile (appendCsv fs p rows) p = some (FileContent.mk 1 rows) := by
        rw [appendCsv, h]
        exact lookupFile_writeFile_same _ _ _
      obtain ⟨c, hc, hh⟩ := runAppends_headerRows p rest (appendCsv fs p rows) _ hfirst
      exact ⟨c, hc, hh⟩
  · intro b b' hne heq
    apply hne
    apply intStr_inj
    have hdata := congrArg String.data heq
    rw [visitsName, visitsName, String.data_append, String.data_append,
      String.data_append, String.data_append] at hdata
    exact String.ext (List.append_cancel_left (List.append_cancel_right hdata))

/-- A sample output row for the witnesses. -/
def rowA : OutRow := ⟨1, 2, 3, 4, 5, 0⟩

/-- The empty file system. -/
def fsEmpty : FS := ⟨[], []⟩

/-- A sample per-cell CSV path. -/
def pathA : String × String := ("root/cell_5", "visits_bucket0.csv")

theorem csv_append_header_once_witness :
    (lookupFile fsEmpty pathA = none
      ∧ lookupFile (appendCsv fsEmpty pathA [rowA]) pathA
          = some (FileContent.mk 1 [rowA]))
    ∧ (lookupFile (writeFile fsEmpty pathA (FileContent.mk 1 [rowA])) pathA
          = some (FileContent.mk 1 [rowA])
      ∧ lookupFile (appendCsv (writeFile fsEmpty pathA (FileContent.mk 1 [rowA]))
            pathA [rowA]) pathA = some (FileContent.mk 1 ([rowA] ++ [rowA])))
    ∧ (pathA ≠ ("root/cell_5", "visits_bucket1.csv")
      ∧ lookupFile (appendCsv fsEmpty ("root/cell_5", "visits_bucket1.csv") [rowA]) pathA
          = lookupFile fsEmpty pathA)
    ∧ (∃ c, lookupFile (runAppends fsEmpty pathA [[rowA], [rowA], [rowA]]) pathA = some c
        ∧ c.headerRows = 1)
    ∧ ((0 : ℤ) ≠ 1 ∧ visitsName 0 ≠ visitsName 1) :=
  ⟨⟨by with_unfolding_all rfl,
      csv_append_header_once.1 fsEmpty pathA [rowA] (by with_unfolding_all rfl)⟩,
    ⟨by with_unfolding_all rfl,
      csv_append_header_once.2.1 (writeFile fsEmpty pathA (FileContent.mk 1 [rowA]))
        pathA [rowA] (FileContent.mk 1 [rowA]) (by with_unfolding_all rfl)⟩,
    ⟨by decide,
      csv_append_header_once.2.2.1 fsEmpty pathA ("root/cell_5", "visits_bucket1.csv")
        [rowA] (by decide)⟩,
    csv_append_header_once.2.2.2.1 fsEmpty pathA [[rowA], [rowA], [rowA]]
      (by with_unfolding_all rfl) (by decide),
    ⟨by decide, csv_append_header_once.2.2.2.2 0 1 (by decide)⟩⟩

/-- Claim C9: if the spatial join assigns no point to any cell, the
bucketizer returns the file-system state unchanged: no directory is
created and no file is written or modified. -/
theorem bucketize_empty_join_frame {G : Type} (lib : GeomLib G)
    (cells : List (Feature G)) (pts : List PtRow) (outRoot : String) (b : ℤ)
    (outName : String) (fs : FS)
    (h : ∀ r ∈ pts, sjoinMatches lib cells (pointOf r) = []) :
    bucketize lib cells pts outRoot b outName fs = fs := by
  have hj : joinRows lib cells pts b = [] := by
    rw [joinRows, List.flatMap_eq_nil_iff]
    intro r hr
    rw [h r hr]
    rfl
  rw [bucketize, hj]
  rfl

/-- A trajectory point that no cell of `gridFs0` strictly contains. -/
def ptFar : PtRow := ⟨7, 1, 999, 999⟩

theorem bucketize_empty_join_frame_witness :
    (∀ r ∈ [ptFar], sjoinMatches rectLib gridFs0 (pointOf r) = [])
    ∧ bucketize rectLib gridFs0 [ptFar] "root" 0 "visits_bucket0.csv" fsEmpty = fsEmpty := by
  have h : ∀ r ∈ [ptFar], sjoinMatches rectLib gridFs0 (pointOf r) = [] := by
    intro r hr
    rw [List.mem_singleton] at hr
    subst hr
    with_unfolding_all rfl
  exact ⟨h, bucketize_empty_join_frame rectLib gridFs0 [ptFar] "root" 0
    "visits_bucket0.csv" fsEmpty h⟩

/-- Claim C10: each block of rows the bucketizer appends to a single
cell's CSV file is the time-sorted permutation of that cell's group:
the per-cell write is exactly an append (after idempotent directory
creation) of a block that is ordered by ascending time. -/
theorem appended_block_time_sorted (outRoot outName : String) (cid : ℕ)
    (sub : List OutRow) (fs : FS) :
    writeCellCsv outRoot outName cid sub fs
      = appendCsv (mkdirP (cellFolder outRoot cid) fs) (cellFolder outRoot cid, outName)
          (sortByTime sub)
    ∧ (sortByTime sub).Pairwise timeLE
    ∧ (sortByTime sub).Perm sub :=
  ⟨rfl, List.sorted_insertionSort timeLE sub, List.perm_insertionSort timeLE sub⟩
